import Mathlib

/-
Verification of the ratnet core against its natural-language specification.

The Go sources are shallowly embedded:
  * `router/default.go`  — the recent-nonce loop-detection buffer and `Route`;
  * `api/chunking.go`    — `SendChunked`;
  * `nodes/qldb/public.go` / `internal.go` — `Pickup`, `Dropoff`, `Forward`;
  * the `db` node (`AddChannel`, `DeleteChannel`, `refreshChannels`, `send`).

Byte strings are `List Nat`, Go maps are association lists (insertion is
overwrite-or-append, exactly the observable behaviour of a Go map together
with `len`), machine integers are `Nat`/`Int` with explicit `% 2^w` where
the Go code truncates.  External collaborators (crypto, gob, database rows,
randomness) are parameters of the embedded functions.
-/

namespace Ratnet

/-! ## RecentBuffer (router/default.go lines 12-82) -/

def recentBufferSize : Nat := 8

def cacheSize : Nat := 256

def entriesPerTable : Nat := cacheSize / recentBufferSize

def nonceSize : Nat := 32

/-- A generation of the recent-nonce buffer: the key set of the Go map
`recentPage` (`map[[32]byte]bool` — only keys matter, values are `true`). -/
abbrev RecentPage := List (List Nat)

/-- `recentBuffer` from router/default.go: eight generations and the index of
the current one. -/
structure RecentBuffer where
  recentPageIdx : Nat
  pages : List RecentPage
  deriving Repr, DecidableEq

/-- `newRecentBuffer`: eight empty generations, index 0. -/
def newRecentBuffer : RecentBuffer :=
  { recentPageIdx := 0, pages := List.replicate recentBufferSize [] }

/-- `hasMsgBeenSeen`: scan every generation for the nonce. -/
def hasMsgBeenSeen (r : RecentBuffer) (nonceVal : List Nat) : Bool :=
  r.pages.any (fun page => decide (nonceVal ∈ page))

/-- `resetRecentPageIfFull`: if generation `idx` holds at least
`entriesPerTable` nonces, replace it with a fresh empty one. -/
def resetRecentPageIfFull (r : RecentBuffer) (idx : Nat) : Bool × RecentBuffer :=
  let isFull := decide (entriesPerTable ≤ (r.pages.getD idx []).length)
  (isFull, if isFull then { r with pages := r.pages.set idx [] } else r)

/-- `setMsgSeen`: Go map assignment `recentBuffer[idx][nonce] = true`. -/
def setMsgSeen (r : RecentBuffer) (idx : Nat) (nonce : List Nat) : RecentBuffer :=
  let page := r.pages.getD idx []
  { r with pages := r.pages.set idx (if nonce ∈ page then page else nonce :: page) }

/-- `seenRecently` (router/default.go lines 57-82): returns whether the first
32 bytes of `nonce` were already stored, and the updated buffer.  The current
generation, when full, is cleared and the index advances (wrapping at 8)
before the insertion. -/
def seenRecently (r : RecentBuffer) (nonce : List Nat) : Bool × RecentBuffer :=
  let nonceVal := nonce.take nonceSize
  let seen := hasMsgBeenSeen r nonceVal
  let idx := r.recentPageIdx
  let resetStep := resetRecentPageIfFull r idx
  let idx2 := if resetStep.1 then
      (if idx < recentBufferSize - 1 then idx + 1 else 0) else idx
  let r2 := if resetStep.1 then
      { resetStep.2 with recentPageIdx := idx2 } else resetStep.2
  let r3 := if !seen then setMsgSeen r2 idx2 nonceVal else r2
  (seen, r3)

/-- Structural well-formedness guaranteed by the Go types: the generation
array has length 8 and the index stays inside it. -/
def RecentBuffer.WF (r : RecentBuffer) : Prop :=
  r.pages.length = recentBufferSize ∧ r.recentPageIdx < recentBufferSize

/-- Run a sequence of `seenRecently` calls, keeping only the final buffer. -/
def runCalls (r : RecentBuffer) (ns : List (List Nat)) : RecentBuffer :=
  ns.foldl (fun b n => (seenRecently b n).2) r

/-- Run a sequence of `seenRecently` calls, collecting the returned booleans. -/
def runCallsReturns (r : RecentBuffer) (ns : List (List Nat)) : List Bool :=
  (ns.foldl (fun (acc : List Bool × RecentBuffer) n =>
    ((seenRecently acc.2 n).1 :: acc.1, (seenRecently acc.2 n).2)) ([], r)).1.reverse

/-! ## DefaultRouter (router/default.go lines 84-274) -/

/-- `api.Patch`: redirect of one incoming channel to a list of outputs. -/
structure Patch where
  From : List Nat
  To : List (List Nat)
  deriving Repr, DecidableEq

/-- `api.Profile` as consumed by the router (only `Enabled` matters;
`Pubkey` is an opaque handle). -/
structure Profile where
  Enabled : Bool
  Pubkey : Nat
  deriving Repr, DecidableEq

/-- `api.Channel` as consumed by the router: only its presence matters. -/
structure GoChannel where
  Pubkey : Nat
  deriving Repr, DecidableEq

/-- The `api.Node` collaborator as consumed by `DefaultRouter.Route`,
modelled as pure response functions.  Channel names are byte strings.
Node-side errors are opaque `Nat` codes — they are distinct values from the
router's own errors, as in the source where each error is its own value. -/
structure NodeOracle where
  CID : Except Nat Unit
  GetChannel : List Nat → Option GoChannel × Option Nat
  Handle : List Nat → List Nat → Except Nat Bool
  GetProfiles : Except Nat (List Profile)
  Forward : List Nat → List Nat → Except Nat Unit

/-- The error outcomes of `DefaultRouter.Route`.  `indexOutOfRange` stands
for the Go panic raised by `message[0]`/`message[1]` on a short slice. -/
inductive RouteErr
  | invalidFrame
  | indexOutOfRange
  | nodeErr (e : Nat)
  deriving Repr, DecidableEq

/-- One observable Node side effect performed while routing. -/
inductive Effect
  | handled (channelName body : List Nat)
  | forwarded (channelName body : List Nat)
  deriving Repr, DecidableEq

/-- The configuration fields of `DefaultRouter`. -/
structure DefaultRouter where
  Patches : List Patch
  CheckContent : Bool
  CheckChannels : Bool
  CheckProfiles : Bool
  ForwardConsumedContent : Bool
  ForwardConsumedChannels : Bool
  ForwardConsumedProfiles : Bool
  ForwardUnknownContent : Bool
  ForwardUnknownChannels : Bool
  ForwardUnknownProfiles : Bool
  deriving Repr, DecidableEq

/-- `NewDefaultRouter` (router/default.go lines 127-141). -/
def NewDefaultRouter : DefaultRouter :=
  { Patches := []
    CheckContent := true
    CheckChannels := true
    CheckProfiles := false
    ForwardUnknownContent := true
    ForwardUnknownChannels := true
    ForwardUnknownProfiles := false
    ForwardConsumedContent := false
    ForwardConsumedChannels := true
    ForwardConsumedProfiles := false }

/-- The inner loop of `forward` (router/default.go lines 155-163): forward
the message to every target of the matching patch, stopping at the first
error.  Also returns the list of attempted Forward calls. -/
def forwardAll (node : NodeOracle) (tos : List (List Nat)) (message : List Nat) :
    Except Nat Unit × List Effect :=
  match tos with
  | [] => (.ok (), [])
  | t :: rest =>
    match node.Forward t message with
    | .error e => (.error e, [.forwarded t message])
    | .ok _ =>
      let r := forwardAll node rest message
      (r.1, .forwarded t message :: r.2)

/-- `forward` (router/default.go lines 154-169): fan out through the first
matching patch, else forward on the original channel. -/
def routerForward (r : DefaultRouter) (node : NodeOracle)
    (channelName message : List Nat) : Except Nat Unit × List Effect :=
  match r.Patches.find? (fun p => p.From == channelName) with
  | some p => forwardAll node p.To message
  | none =>
    match node.Forward channelName message with
    | .error e => (.error e, [.forwarded channelName message])
    | .ok _ => (.ok (), [.forwarded channelName message])

/-- The profile loop of `Route` (router/default.go lines 235-248): try
`Handle` once per enabled profile, stopping at the first consumption or
error. -/
def profilesLoop (node : NodeOracle) (channelName body : List Nat) :
    List Profile → Except Nat Bool × List Effect
  | [] => (.ok false, [])
  | p :: rest =>
    if p.Enabled then
      match node.Handle channelName body with
      | .error e => (.error e, [.handled channelName body])
      | .ok consumed =>
        if consumed then (.ok true, [.handled channelName body])
        else
          let r := profilesLoop node channelName body rest
          (r.1, .handled channelName body :: r.2)
    else profilesLoop node channelName body rest

/-- The channel-message branch of `Route` (router/default.go lines 194-212),
entered after the CID call succeeded.  Returns the node-level outcome and
the Handle/Forward calls performed. -/
def routeChannelMsg (r : DefaultRouter) (node : NodeOracle)
    (channelName body : List Nat) : Except Nat Unit × List Effect :=
  let step : Except Nat Bool × List Effect :=
    if r.CheckChannels then
      match node.GetChannel channelName with
      | (some _, none) =>
        match node.Handle channelName body with
        | .error e => (.error e, [.handled channelName body])
        | .ok c => (.ok c, [.handled channelName body])
      | _ => (.ok false, [])
    else (.ok false, [])
  match step with
  | (.error e, tr) => (.error e, tr)
  | (.ok consumed, tr) =>
    if (!consumed && r.ForwardUnknownChannels) || (consumed && r.ForwardConsumedChannels) then
      let fw := routerForward r node channelName body
      (fw.1, tr ++ fw.2)
    else (.ok (), tr)

/-- The private-message branch of `Route` (router/default.go lines 213-254):
content-key pass then profile-keys pass, with an empty channel name. -/
def routePrivateMsg (r : DefaultRouter) (node : NodeOracle)
    (body : List Nat) : Except Nat Unit × List Effect :=
  let channelName : List Nat := []
  let contentStep : Except Nat Bool × List Effect :=
    if r.CheckContent then
      match node.Handle channelName body with
      | .error e => (.error e, [.handled channelName body])
      | .ok c => (.ok c, [.handled channelName body])
    else (.ok false, [])
  match contentStep with
  | (.error e, tr) => (.error e, tr)
  | (.ok consumed, tr1) =>
    let afterContent : Except Nat Unit × List Effect :=
      if (!consumed && r.ForwardUnknownContent) || (consumed && r.ForwardConsumedContent) then
        let fw := routerForward r node channelName body
        (fw.1, tr1 ++ fw.2)
      else (.ok (), tr1)
    match afterContent with
    | (.error e, tr2) => (.error e, tr2)
    | (.ok _, tr2) =>
      let profStep : Except Nat Bool × List Effect :=
        if r.CheckProfiles then
          match node.GetProfiles with
          | .error e => (.error e, [])
          | .ok profiles => profilesLoop node channelName body profiles
        else (.ok false, [])
      match profStep with
      | (.error e, tr3) => (.error e, tr2 ++ tr3)
      | (.ok consumed2, tr3) =>
        if (!consumed2 && r.ForwardUnknownProfiles) || (consumed2 && r.ForwardConsumedProfiles) then
          let fw := routerForward r node channelName body
          (fw.1, tr2 ++ tr3 ++ fw.2)
        else (.ok (), tr2 ++ tr3)

/-- `Route` (router/default.go lines 172-257).  `message[0]`/`message[1]`
are read before any length check (a Go panic on a short message, modelled by
`indexOutOfRange`); then the frame-length check (int arithmetic), the
loop-prevention check, and the channel/private dispatch.  `idx := 2 +
channelLen`, the nonce-slice bound `idx + nonceSize` and the channel-name
slice bound `2 + channelLen` are all computed in uint16 in the source, so
they wrap at 65536 for channel lengths ≥ 65502 that pass the length check:
an inverted slice is a Go bounds panic (again `indexOutOfRange`).  Returns
the result, the updated recent buffer and the Handle/Forward calls
performed. -/
def Route (r : DefaultRouter) (rb : RecentBuffer) (node : NodeOracle)
    (message : List Nat) : Except RouteErr Unit × RecentBuffer × List Effect :=
  match message with
  | b0 :: b1 :: _ =>
    let channelLen := b0 * 256 + b1
    if message.length < channelLen + 2 + 64 then (.error .invalidFrame, rb, [])
    else
      let idx := (2 + channelLen) % 65536
      let idxEnd := (idx + nonceSize) % 65536
      if idxEnd < idx then (.error .indexOutOfRange, rb, [])
      else
        let nonce := (message.drop idx).take (idxEnd - idx)
        let sr := seenRecently rb nonce
        if sr.1 then (.ok (), sr.2, [])
        else
          match node.CID with
          | .error e => (.error (.nodeErr e), sr.2, [])
          | .ok _ =>
            if 0 < channelLen then
              if (2 + channelLen) % 65536 < 2 then (.error .indexOutOfRange, sr.2, [])
              else
                let channelName := (message.drop 2).take ((2 + channelLen) % 65536 - 2)
                let res := routeChannelMsg r node channelName (message.drop idx)
                match res.1 with
                | .error e => (.error (.nodeErr e), sr.2, res.2)
                | .ok _ => (.ok (), sr.2, res.2)
            else
              let res := routePrivateMsg r node (message.drop idx)
              match res.1 with
              | .error e => (.error (.nodeErr e), sr.2, res.2)
              | .ok _ => (.ok (), sr.2, res.2)
  | _ => (.error .indexOutOfRange, rb, [])

/-! ## Chunking (api/chunking.go lines 39-83) -/

/-- Little-endian u32 encoding, as written by `binary.Write(...,
binary.LittleEndian, uint32(x))`. -/
def toLE32 (n : Nat) : List Nat :=
  [n % 256, n / 256 % 256, n / 65536 % 256, n / 16777216 % 256]

/-- A message handed to `node.SendMsg` by `SendChunked`: its content bytes
and the Chunked/StreamHeader flags (Name/IsChan/PubKey are passed through
unchanged and are irrelevant here). -/
structure ChunkMsg where
  Content : List Nat
  Chunked : Bool
  StreamHeader : Bool
  deriving Repr, DecidableEq

/-- `SendChunked` (api/chunking.go lines 39-83).  The 4 random stream-ID
bytes are a parameter and the messages handed to `node.SendMsg` are returned
in order of emission.  `buflen` is the Go `uint32(len(buf))` truncation. -/
def SendChunked (streamID : List Nat) (chunkSize : Nat) (buf : List Nat) :
    List ChunkMsg :=
  let buflen := buf.length % 4294967296
  let chunkSizeMinusHeader := chunkSize - 8
  let wholeLoops := buflen / chunkSizeMinusHeader
  let remainder := buflen % chunkSizeMinusHeader
  let totalChunks := wholeLoops + (if remainder ≠ 0 then 1 else 0)
  if wholeLoops + remainder ≠ 0 then
    { Content := streamID ++ toLE32 totalChunks
      Chunked := true, StreamHeader := true } ::
    ((List.range wholeLoops).map (fun i =>
        { Content := streamID ++ toLE32 i ++
            ((buf.drop (i * chunkSizeMinusHeader)).take chunkSizeMinusHeader)
          Chunked := true, StreamHeader := false }) ++
      (if 0 < remainder then
        [{ Content := streamID ++ toLE32 wholeLoops ++
             buf.drop (wholeLoops * chunkSizeMinusHeader)
           Chunked := true, StreamHeader := false }]
       else []))
  else []

/-! ## qldb node: Pickup and Dropoff (nodes/qldb/public.go) -/

/-- `api.Bundle`: a sync cursor and an encrypted batch. -/
structure Bundle where
  Time : Int
  Data : List Nat
  deriving Repr, DecidableEq

/-- The row-scan loop of `Pickup` (public.go lines 114-124): starting from
`lastTime`, track the running maximum timestamp (`ts > lastTimeReturned`)
and collect the row messages in order. -/
def pickupStep (acc : Int × List (List Nat)) (row : List Nat × Int) :
    Int × List (List Nat) :=
  (if row.2 > acc.1 then row.2 else acc.1, acc.2 ++ [row.1])

def pickupScan (lastTime : Int) (rows : List (List Nat × Int)) :
    Int × List (List Nat) :=
  rows.foldl pickupStep (lastTime, [])

/-- The result assembly of `Pickup` (public.go lines 111-147): `rows` is the
result set of the outbox query (delivered by the database collaborator) and
`encrypt` is the gob-encode-plus-`EncryptMessage` collaborator.  With no
rows, `Data` stays empty. -/
def Pickup (encrypt : List (List Nat) → List Nat) (lastTime : Int)
    (rows : List (List Nat × Int)) : Bundle :=
  let scan := pickupScan lastTime rows
  if scan.2.length > 0 then { Time := scan.1, Data := encrypt scan.2 }
  else { Time := scan.1, Data := [] }

/-- The byte values of the Go validation alphabet
`"abcdefghijklmnopqrstuvwxyzABCDEFGHIJKLMNOPQRSTUVWXYZ0987654321"`. -/
def validChars : List Nat :=
  [97, 98, 99, 100, 101, 102, 103, 104, 105, 106, 107, 108, 109, 110, 111,
   112, 113, 114, 115, 116, 117, 118, 119, 120, 121, 122,
   65, 66, 67, 68, 69, 70, 71, 72, 73, 74, 75, 76, 77, 78, 79, 80, 81, 82,
   83, 84, 85, 86, 87, 88, 89, 90,
   48, 57, 56, 55, 54, 53, 52, 51, 50, 49]

/-- The single error of the validation prelude. -/
inductive PickupErr
  | invalidChannelName
  deriving Repr, DecidableEq

/-- The wildcard/validation prelude of `Pickup` (public.go lines 75-105):
with no channel names, wildcard mode — every channel is queried (no channel
filter is added to the query); otherwise each character of each name must
occur in the alphabet (`strings.Contains` of a one-character string is
membership; a multi-byte character is never a substring of the ASCII
alphabet).  Returns the channel filter used by the query. -/
def pickupChannelFilter (channelNames : List (List Nat)) :
    Except PickupErr (Option (List (List Nat))) :=
  if channelNames.length < 1 then .ok none
  else if channelNames.any (fun cname => cname.any (fun c => !(decide (c ∈ validChars))))
  then .error .invalidChannelName
  else .ok (some channelNames)

/-- The error outcomes of `Dropoff` (public.go lines 22-54). -/
inductive DropoffErr
  | noData
  | decryptErr (e : Nat)
  | tagFail
  | decodeErr (e : Nat)
  deriving Repr, DecidableEq

/-- The per-message routing loop of `Dropoff` (public.go lines 42-51):
messages shorter than 16 bytes (`aes.BlockSize`) are skipped; `Route` is
called on every other message; a routing error is only logged and the loop
continues with the next message.  Returns the messages passed to Route. -/
def dropoffLoop (route : List Nat → Except Nat Unit) :
    List (List Nat) → List (List Nat)
  | [] => []
  | m :: rest =>
    if m.length < 16 then dropoffLoop route rest
    else
      match route m with
      | .error _ => m :: dropoffLoop route rest
      | .ok _ => m :: dropoffLoop route rest

/-- `Dropoff` (public.go lines 22-54).  The envelope decryption
(`routingKey.DecryptMessage`) and the gob decode are collaborator
parameters; `route` is the `router.Route` call.  Returns the result and the
messages routed. -/
def Dropoff (decrypt : List Nat → Except Nat (Bool × List Nat))
    (decode : List Nat → Except Nat (List (List Nat)))
    (route : List Nat → Except Nat Unit)
    (data : List Nat) : Except DropoffErr Unit × List (List Nat) :=
  if data.length < 1 then (.error .noData, [])
  else
    match decrypt data with
    | .error e => (.error (.decryptErr e), [])
    | .ok (tagOK, clear) =>
      if !tagOK then (.error .tagFail, [])
      else
        match decode clear with
        | .error e => (.error (.decodeErr e), [])
        | .ok msgs => (.ok (), dropoffLoop route msgs)

/-! ## Outbox framing (nodes/qldb/internal.go lines 31-53; db node `send`) -/

/-- The channel prefix written by `Forward` and `send`:
`t := uint16(len(channelName))`, then `byte(t >> 8)` and `byte(t & 0xFF)`
(high byte first), then the name, prepended to the message. -/
def frameChannel (channelName message : List Nat) : List Nat :=
  ((channelName.length % 65536) >>> 8) % 256 ::
    (channelName.length % 65536) % 256 :: (channelName ++ message)

/-- Modelled from the spec: the OutboxStore collaborator's enqueue
(`dbOutboxEnqueue` / the qldb `INSERT INTO outbox`, not under src/) appends
the row `(channel, message, timestamp)`. -/
def outboxEnqueue (outbox : List (List Nat × List Nat × Int))
    (channel message : List Nat) (ts : Int) :
    List (List Nat × List Nat × Int) :=
  outbox ++ [(channel, message, ts)]

/-- `Forward` (nodes/qldb/internal.go lines 31-53): frame the message with
the channel prefix; if an identical (channel, message) row already exists,
skip; else append the framed row at the current time. -/
def qldbForward (outbox : List (List Nat × List Nat × Int))
    (channelName message : List Nat) (now : Int) :
    List (List Nat × List Nat × Int) :=
  let framed := frameChannel channelName message
  if outbox.any (fun r => r.1 == channelName && r.2.1 == framed) then outbox
  else outboxEnqueue outbox channelName framed now

/-- `send` (db node, lines 441-456 of the concatenated policy/poll.go):
encrypt the payload under the content key to the destination, frame it with
the channel prefix, enqueue (no dedup on this path). -/
def nodeSend (encrypt : List Nat → List Nat)
    (outbox : List (List Nat × List Nat × Int))
    (channelName msg : List Nat) (now : Int) :
    List (List Nat × List Nat × Int) :=
  let data := encrypt msg
  outboxEnqueue outbox channelName (frameChannel channelName data) now

/-! ## db node channel-key cache (concatenated policy/poll.go:
refreshChannels lines 205-211, AddChannel/DeleteChannel lines 325-338) -/

/-- Go map assignment on the channel-key map, modelled extensionally. -/
def mapInsert (m : List Nat → Option Nat) (k : List Nat) (v : Nat) :
    List Nat → Option Nat :=
  fun q => if q = k then some v else m q

/-- The db node's channel state: the channels table rows (name, privkey) in
the database, and the in-memory `channelKeys` cache. -/
structure ChannelState where
  channels : List (List Nat × Nat)
  channelKeys : List Nat → Option Nat

/-- Modelled from the spec: `dbAddChannel` (database collaborator, not under
src/) adds the channel row, or replaces it when the name already exists. -/
def dbAddChannel (st : List (List Nat × Nat)) (name : List Nat)
    (privkey : Nat) : List (List Nat × Nat) :=
  if st.any (fun e => e.1 == name) then
    st.map (fun e => if e.1 == name then (name, privkey) else e)
  else st ++ [(name, privkey)]

/-- Modelled from the spec: `dbDeleteChannel` removes the channel row. -/
def dbDeleteChannel (st : List (List Nat × Nat)) (name : List Nat) :
    List (List Nat × Nat) :=
  st.filter (fun e => !(e.1 == name))

/-- `refreshChannels` (lines 205-211): for every stored channel, write its
key into the cache — entries are only added or overwritten, never removed. -/
def refreshChannels (n : ChannelState) : ChannelState :=
  { n with channelKeys :=
      n.channels.foldl (fun m e => mapInsert m e.1 e.2) n.channelKeys }

/-- `AddChannel` (lines 326-332): store in the database, then refresh the
cache. -/
def AddChannel (n : ChannelState) (name : List Nat) (privkey : Nat) :
    ChannelState :=
  refreshChannels { n with channels := dbAddChannel n.channels name privkey }

/-- `DeleteChannel` (lines 335-338): remove from the database.  The source
does not call refreshChannels here, so the cache keeps the deleted key. -/
def DeleteChannel (n : ChannelState) (name : List Nat) : ChannelState :=
  { n with channels := dbDeleteChannel n.channels name }

/-- The cache lookup performed by `Handle`
(`v, ok := node.channelKeys[channelName]`, db node lines 180-183). -/
def handleChannelKey (n : ChannelState) (name : List Nat) : Option Nat :=
  n.channelKeys name

/-- A do-nothing Node used to instantiate witnesses. -/
def trivialNode : NodeOracle where
  CID := .ok ()
  GetChannel := fun _ => (none, none)
  Handle := fun _ _ => .ok false
  GetProfiles := .ok []
  Forward := fun _ _ => .ok ()

theorem getD_set_self {α : Type} (l : List α) (i : Nat) (a d : α) (h : i < l.length) :
    (l.set i a).getD i d = a := by
  rw [List.getD_eq_getElem _ d (by simpa using h)]
  exact List.getElem_set_self (by simpa using h)

theorem mem_getD_hasMsgBeenSeen (b : RecentBuffer) (p : Nat) (x : List Nat)
    (h : x ∈ b.pages.getD p []) : hasMsgBeenSeen b x = true := by
  by_cases hp : p < b.pages.length
  · rw [List.getD_eq_getElem _ _ hp] at h
    simp only [hasMsgBeenSeen, List.any_eq_true, decide_eq_true_eq]
    exact ⟨_, List.getElem_mem hp, h⟩
  · rw [List.getD_eq_default _ _ (le_of_not_lt hp)] at h
    cases h

theorem seenRecently_pages_length (b : RecentBuffer) (n : List Nat) :
    (seenRecently b n).2.pages.length = b.pages.length := by
  simp only [seenRecently, resetRecentPageIfFull, setMsgSeen]
  split_ifs <;> simp [List.length_set]

theorem seenRecently_idx_lt (b : RecentBuffer) (n : List Nat)
    (hidx : b.recentPageIdx < recentBufferSize) :
    (seenRecently b n).2.recentPageIdx < recentBufferSize := by
  simp only [seenRecently, resetRecentPageIfFull, setMsgSeen]
  split_ifs <;> (try simp) <;> omega

/-- On a miss, `seenRecently` stores the (truncated) nonce in the current
generation of the resulting buffer. -/
theorem seenRecently_insert (b : RecentBuffer) (n : List Nat)
    (hlen : b.pages.length = recentBufferSize)
    (hidx : b.recentPageIdx < recentBufferSize)
    (hmiss : (seenRecently b n).1 = false) :
    n.take nonceSize ∈
      (seenRecently b n).2.pages.getD (seenRecently b n).2.recentPageIdx [] := by
  have hseen : hasMsgBeenSeen b (n.take nonceSize) = false := by
    simpa [seenRecently] using hmiss
  simp only [seenRecently, resetRecentPageIfFull, setMsgSeen, hseen,
    Bool.not_false, if_true]
  split_ifs <;>
    (rw [getD_set_self _ _ _ _ (by simp only [List.length_set, hlen]; omega)]
     first
       | assumption
       | exact List.mem_cons_self _ _)

/-- While the current generation is not yet full, a `seenRecently` call does
not advance the index, does not clear anything, grows the current generation
by at most one entry and preserves its members. -/
theorem seenRecently_keep (b : RecentBuffer) (n : List Nat) (p : Nat)
    (hp : b.recentPageIdx = p) (hplen : p < b.pages.length)
    (hroom : (b.pages.getD p []).length < entriesPerTable) :
    (seenRecently b n).2.recentPageIdx = p ∧
    (seenRecently b n).2.pages.length = b.pages.length ∧
    ((seenRecently b n).2.pages.getD p []).length ≤ (b.pages.getD p []).length + 1 ∧
    ∀ x, x ∈ b.pages.getD p [] → x ∈ (seenRecently b n).2.pages.getD p [] := by
  have hc1 : decide (entriesPerTable ≤ (b.pages.getD p []).length) = false := by
    simp only [decide_eq_false_iff_not]; omega
  by_cases hseen : hasMsgBeenSeen b (n.take nonceSize) = true
  · refine ⟨?_, ?_, ?_, ?_⟩ <;>
      simp only [seenRecently, resetRecentPageIfFull, hseen, hp, hc1,
        Bool.false_eq_true, if_false, Bool.not_true]
    · omega
    · intro x hx; exact hx
  · rw [Bool.not_eq_true] at hseen
    refine ⟨?_, ?_, ?_, ?_⟩ <;>
      simp only [seenRecently, resetRecentPageIfFull, setMsgSeen, hseen, hp, hc1,
        Bool.false_eq_true, if_false, Bool.not_false, if_true, List.length_set]
    · rw [getD_set_self _ _ _ _ hplen]
      split
      · omega
      · simp only [List.length_cons]; omega
    · intro x hx
      rw [getD_set_self _ _ _ _ hplen]
      split
      · exact hx
      · exact List.mem_cons_of_mem _ hx

/-- A nonce stored in the current generation survives any run of calls that
fits in the generation's remaining room. -/
theorem runCalls_mem (ns : List (List Nat)) (b : RecentBuffer) (p : Nat)
    (x : List Nat)
    (hp : b.recentPageIdx = p) (hplen : p < b.pages.length)
    (hx : x ∈ b.pages.getD p [])
    (hroom : (b.pages.getD p []).length + ns.length ≤ entriesPerTable) :
    x ∈ (runCalls b ns).pages.getD p [] := by
  induction ns generalizing b with
  | nil => simpa [runCalls] using hx
  | cons n ns ih =>
    have hlt : (b.pages.getD p []).length < entriesPerTable := by
      simp only [List.length_cons] at hroom; omega
    obtain ⟨h1, h2, h3, h4⟩ := seenRecently_keep b n p hp hplen hlt
    have : runCalls b (n :: ns) = runCalls (seenRecently b n).2 ns := by
      simp [runCalls]
    rw [this]
    exact ih _ h1 (by omega) (h4 x hx)
      (by simp only [List.length_cons] at hroom; omega)

theorem seenRecently_fst (b : RecentBuffer) (n : List Nat) :
    (seenRecently b n).1 = hasMsgBeenSeen b (n.take nonceSize) := rfl

/-- Claim C1 (amended): after a call to `seenRecently(N)` that returns false
(and therefore inserts N), a subsequent call to `seenRecently(N)` returns true
provided at most `C - k = 32 - k` calls of other nonces happened in between,
where `k` is the number of nonces held by the current generation immediately
after N's insertion (stated below as `k + #intervening ≤ 32`).  The
as-written bound of 32 intervening insertions does not hold: clearing a full
generation happens before the index advances, so the generation holding N is
itself destroyed by the insertion that follows its filling up. -/
theorem c1_recent_nonce_window (s : RecentBuffer) (N : List Nat)
    (ns : List (List Nat))
    (hWF : s.WF) (hN : N.length = nonceSize)
    (hmiss : (seenRecently s N).1 = false)
    (hothers : ∀ n ∈ ns, n.take nonceSize ≠ N)
    (hbudget : ((seenRecently s N).2.pages.getD
        (seenRecently s N).2.recentPageIdx []).length + ns.length ≤ entriesPerTable) :
    (seenRecently (runCalls (seenRecently s N).2 ns) N).1 = true := by
  obtain ⟨hlen, hidx⟩ := hWF
  have h1 := seenRecently_pages_length s N
  have h2 := seenRecently_idx_lt s N hidx
  have h3 := seenRecently_insert s N hlen hidx hmiss
  have hm := runCalls_mem ns (seenRecently s N).2 (seenRecently s N).2.recentPageIdx
    (N.take nonceSize) rfl (by rw [h1, hlen]; exact h2) h3 hbudget
  rw [seenRecently_fst]
  exact mem_getD_hasMsgBeenSeen _ _ _ hm

set_option maxRecDepth 4000 in
/-- Witness for C1: a fresh buffer, N = 0^32, one other insertion in between;
the second query of N returns true. -/
theorem c1_recent_nonce_window_witness :
    newRecentBuffer.WF ∧ (List.replicate 32 0).length = nonceSize ∧
    (seenRecently newRecentBuffer (List.replicate 32 0)).1 = false ∧
    (∀ n ∈ [[1] ++ List.replicate 31 0], n.take nonceSize ≠ List.replicate 32 0) ∧
    ((seenRecently newRecentBuffer (List.replicate 32 0)).2.pages.getD
        (seenRecently newRecentBuffer (List.replicate 32 0)).2.recentPageIdx []).length
      + [[1] ++ List.replicate 31 0].length ≤ entriesPerTable ∧
    (seenRecently (runCalls (seenRecently newRecentBuffer (List.replicate 32 0)).2
      [[1] ++ List.replicate 31 0]) (List.replicate 32 0)).1 = true :=
  ⟨⟨by decide, by decide⟩, by decide, by decide, by decide, by decide,
    c1_recent_nonce_window newRecentBuffer (List.replicate 32 0)
      [[1] ++ List.replicate 31 0] ⟨by decide, by decide⟩ (by decide) (by decide)
      (by decide) (by decide)⟩

set_option maxRecDepth 10000 in
/-- Counterexample to C1 as stated: from a fresh buffer, N = 0^32 is inserted
(first call returns false); exactly 32 distinct other 32-byte nonces are then
inserted (every intervening call returns false, i.e. each one is an
insertion — at most C = 32 of them); yet the subsequent `seenRecently(N)`
returns false, because the 32nd intervening insertion cleared the generation
that held N. -/
theorem c1_counterexample :
    (seenRecently newRecentBuffer (List.replicate 32 0)).1 = false ∧
    ((List.range 32).map (fun k => (k + 1) :: List.replicate 31 0)).length ≤ 32 ∧
    (∀ n ∈ (List.range 32).map (fun k => (k + 1) :: List.replicate 31 0),
      n.take nonceSize ≠ List.replicate 32 0 ∧ n.length = 32) ∧
    runCallsReturns (seenRecently newRecentBuffer (List.replicate 32 0)).2
      ((List.range 32).map (fun k => (k + 1) :: List.replicate 31 0)) =
        List.replicate 32 false ∧
    (seenRecently (runCalls (seenRecently newRecentBuffer (List.replicate 32 0)).2
      ((List.range 32).map (fun k => (k + 1) :: List.replicate 31 0)))
      (List.replicate 32 0)).1 = false := by
  refine ⟨by decide, by decide, by decide, by decide, by decide⟩

/-! ## Router theorems -/

theorem take_nonce_idem (l : List Nat) :
    (l.take nonceSize).take nonceSize = l.take nonceSize := by
  rw [List.take_take, min_self]

theorem route_long_not_invalidFrame (r : DefaultRouter) (rb : RecentBuffer)
    (node : NodeOracle) (b0 b1 : Nat) (rest : List Nat)
    (hlen : ¬ (b0 :: b1 :: rest).length < b0 * 256 + b1 + 2 + 64) :
    (Route r rb node (b0 :: b1 :: rest)).1 ≠ Except.error RouteErr.invalidFrame := by
  simp only [Route]
  rw [if_neg hlen]
  split
  · simp
  · split
    · simp
    · split
      · simp
      · split
        · split
          · simp
          · split <;> simp
        · split <;> simp

/-- The uint16 frame offsets do not wrap when `2 + chanLen + 32 ≤ 65535`:
the nonce slice is at offset `2 + chanLen`, 32 bytes long, and neither
bounds check fires. -/
theorem route_nowrap_norm (b0 b1 : Nat)
    (hnw : 2 + (b0 * 256 + b1) + nonceSize ≤ 65535) :
    (2 + (b0 * 256 + b1)) % 65536 = 2 + (b0 * 256 + b1) ∧
    (2 + (b0 * 256 + b1) + nonceSize) % 65536 = 2 + (b0 * 256 + b1) + nonceSize ∧
    2 + (b0 * 256 + b1) + nonceSize - (2 + (b0 * 256 + b1)) = nonceSize := by
  refine ⟨Nat.mod_eq_of_lt (by omega), Nat.mod_eq_of_lt (by omega), by omega⟩

theorem route_buffer_eq (r : DefaultRouter) (rb : RecentBuffer)
    (node : NodeOracle) (b0 b1 : Nat) (rest : List Nat)
    (hlen : ¬ (b0 :: b1 :: rest).length < b0 * 256 + b1 + 2 + 64)
    (hnw : 2 + (b0 * 256 + b1) + nonceSize ≤ 65535) :
    (Route r rb node (b0 :: b1 :: rest)).2.1 =
      (seenRecently rb
        (((b0 :: b1 :: rest).drop (2 + (b0 * 256 + b1))).take nonceSize)).2 := by
  obtain ⟨ha, hb, hc⟩ := route_nowrap_norm b0 b1 hnw
  simp only [Route]
  rw [if_neg hlen]
  simp only [ha, hb, hc]
  rw [if_neg (show ¬ 2 + (b0 * 256 + b1) + nonceSize < 2 + (b0 * 256 + b1) by omega)]
  split
  · rfl
  · split
    · rfl
    · split
      · split
        · rfl
        · split <;> rfl
      · split <;> rfl

theorem route_eq_of_seen (r : DefaultRouter) (rb : RecentBuffer)
    (node : NodeOracle) (b0 b1 : Nat) (rest : List Nat)
    (hlen : ¬ (b0 :: b1 :: rest).length < b0 * 256 + b1 + 2 + 64)
    (hnw : 2 + (b0 * 256 + b1) + nonceSize ≤ 65535)
    (hseen : hasMsgBeenSeen rb
      (((b0 :: b1 :: rest).drop (2 + (b0 * 256 + b1))).take nonceSize) = true) :
    Route r rb node (b0 :: b1 :: rest) =
      (.ok (), (seenRecently rb
        (((b0 :: b1 :: rest).drop (2 + (b0 * 256 + b1))).take nonceSize)).2, []) := by
  have hsr : (seenRecently rb
      (((b0 :: b1 :: rest).drop (2 + (b0 * 256 + b1))).take nonceSize)).1 = true := by
    rw [seenRecently_fst, take_nonce_idem]; exact hseen
  obtain ⟨ha, hb, hc⟩ := route_nowrap_norm b0 b1 hnw
  simp only [Route]
  rw [if_neg hlen]
  simp only [ha, hb, hc]
  rw [if_neg (show ¬ 2 + (b0 * 256 + b1) + nonceSize < 2 + (b0 * 256 + b1) by omega),
    if_pos hsr]

/-- With a wrapped nonce slice (`(idx + 32) mod 2^16 < idx`, i.e. chanLen in
[65502, 65533]), the Go slice bounds are inverted and `Route` panics before
the loop-prevention check — the buffer is untouched and no effect happens. -/
theorem route_wrap_panic (r : DefaultRouter) (rb : RecentBuffer)
    (node : NodeOracle) (b0 b1 : Nat) (rest : List Nat)
    (hlen : ¬ (b0 :: b1 :: rest).length < b0 * 256 + b1 + 2 + 64)
    (hwrap : ((2 + (b0 * 256 + b1)) % 65536 + nonceSize) % 65536 <
      (2 + (b0 * 256 + b1)) % 65536) :
    Route r rb node (b0 :: b1 :: rest) =
      (.error .indexOutOfRange, rb, []) := by
  simp only [Route]
  rw [if_neg hlen, if_pos hwrap]

theorem route_inserts_nonce (r : DefaultRouter) (rb : RecentBuffer)
    (node : NodeOracle) (b0 b1 : Nat) (rest : List Nat)
    (hWF : rb.WF)
    (hlen : ¬ (b0 :: b1 :: rest).length < b0 * 256 + b1 + 2 + 64)
    (hnw : 2 + (b0 * 256 + b1) + nonceSize ≤ 65535)
    (hmiss : hasMsgBeenSeen rb
      (((b0 :: b1 :: rest).drop (2 + (b0 * 256 + b1))).take nonceSize) = false) :
    hasMsgBeenSeen (Route r rb node (b0 :: b1 :: rest)).2.1
      (((b0 :: b1 :: rest).drop (2 + (b0 * 256 + b1))).take nonceSize) = true := by
  obtain ⟨hl, hi⟩ := hWF
  rw [route_buffer_eq r rb node b0 b1 rest hlen hnw]
  have hm : (seenRecently rb
      (((b0 :: b1 :: rest).drop (2 + (b0 * 256 + b1))).take nonceSize)).1 = false := by
    rw [seenRecently_fst, take_nonce_idem]; exact hmiss
  have h3 := seenRecently_insert rb
    (((b0 :: b1 :: rest).drop (2 + (b0 * 256 + b1))).take nonceSize) hl hi hm
  have h4 := mem_getD_hasMsgBeenSeen _ _ _ h3
  rwa [take_nonce_idem] at h4

/-- Claim C2 (amended): for every message of length at least 2, with
`chanLen` the big-endian u16 read from its first two bytes, `Route` returns
the invalid-frame error iff `len(M) < 2 + chanLen + 64` (not `+ 32` — the
source requires 64 spare bytes after the channel name: the 32-byte nonce
plus 32 further bytes), and on that error performs no Handle and no Forward
and leaves the recent buffer untouched. -/
theorem c2_route_frame_check (r : DefaultRouter) (rb : RecentBuffer)
    (node : NodeOracle) (msg : List Nat) (b0 b1 : Nat) (rest : List Nat)
    (hm : msg = b0 :: b1 :: rest) :
    ((Route r rb node msg).1 = Except.error RouteErr.invalidFrame ↔
      msg.length < 2 + (b0 * 256 + b1) + 64) ∧
    (msg.length < 2 + (b0 * 256 + b1) + 64 →
      (Route r rb node msg).2.2 = [] ∧ (Route r rb node msg).2.1 = rb) := by
  subst hm
  have hshort : (b0 :: b1 :: rest).length < 2 + (b0 * 256 + b1) + 64 →
      Route r rb node (b0 :: b1 :: rest) = (.error .invalidFrame, rb, []) := by
    intro h
    simp only [Route]
    rw [if_pos (by omega)]
  refine ⟨⟨?_, ?_⟩, ?_⟩
  · intro h
    by_contra hlen
    exact route_long_not_invalidFrame r rb node b0 b1 rest (by omega) h
  · intro h
    rw [hshort h]
  · intro h
    rw [hshort h]
    exact ⟨rfl, rfl⟩

/-- Witness for C2: a 66-byte all-zero message is exactly long enough
(chanLen = 0, 2 + 0 + 64 = 66), so no invalid-frame error. -/
theorem c2_route_frame_check_witness :
    ((Route NewDefaultRouter newRecentBuffer trivialNode (List.replicate 66 0)).1 =
        Except.error RouteErr.invalidFrame ↔
      (List.replicate 66 0).length < 2 + (0 * 256 + 0) + 64) ∧
    ((List.replicate 66 0).length < 2 + (0 * 256 + 0) + 64 →
      (Route NewDefaultRouter newRecentBuffer trivialNode (List.replicate 66 0)).2.2 = [] ∧
      (Route NewDefaultRouter newRecentBuffer trivialNode (List.replicate 66 0)).2.1 =
        newRecentBuffer) :=
  c2_route_frame_check NewDefaultRouter newRecentBuffer trivialNode
    (List.replicate 66 0) 0 0 (List.replicate 64 0) (by decide)

set_option maxRecDepth 2000 in
/-- Counterexample to C2 as stated: a 34-byte all-zero message has
`len = 34 ≥ 2 + chanLen + 32 = 34`, so the claim predicts success, yet the
code rejects it with the invalid-frame error (its bound is `2 + chanLen +
64`). -/
theorem c2_counterexample :
    (Route NewDefaultRouter newRecentBuffer trivialNode (List.replicate 34 0)).1 =
      Except.error RouteErr.invalidFrame ∧
    ¬ (List.replicate 34 0).length < 2 + (0 * 256 + 0) + 32 := by
  exact ⟨by rfl, by decide⟩

/-- Claim C10: `Route` reads `message[0]` and `message[1]` before any length
check, so on every message shorter than 2 bytes it panics with an
out-of-range index (the operation is not total there) instead of returning
the invalid-frame error. -/
theorem c10_route_short_panics (r : DefaultRouter) (rb : RecentBuffer)
    (node : NodeOracle) (msg : List Nat) (h : msg.length < 2) :
    (Route r rb node msg).1 = Except.error RouteErr.indexOutOfRange ∧
    RouteErr.indexOutOfRange ≠ RouteErr.invalidFrame := by
  refine ⟨?_, by simp⟩
  match msg with
  | [] => rfl
  | [b] => rfl
  | b0 :: b1 :: rest => simp only [List.length_cons] at h; omega

/-- Witness for C10: the empty message. -/
theorem c10_route_short_panics_witness :
    (Route NewDefaultRouter newRecentBuffer trivialNode []).1 =
      Except.error RouteErr.indexOutOfRange ∧
    RouteErr.indexOutOfRange ≠ RouteErr.invalidFrame :=
  c10_route_short_panics NewDefaultRouter newRecentBuffer trivialNode [] (by decide)

/-- Claim C5 (amended): for every framed message with a valid prefix whose
channel length keeps the uint16 frame offsets from wrapping
(`2 + chanLen + 32 ≤ 65535`, i.e. chanLen ≤ 65501), routing it twice
performs the Handle/Forward effects at most once (one of the two calls has
an empty effect trace); and whenever the message's nonce is not yet in the
recent buffer, the first call inserts it, and the second call finds it,
returns nil and invokes neither Handle nor Forward.  For chanLen ≥ 65502 the
source's uint16 offset arithmetic wraps and Route panics instead (see the
counterexample). -/
theorem c5_route_twice_at_most_once (r : DefaultRouter) (rb : RecentBuffer)
    (node : NodeOracle) (b0 b1 : Nat) (rest : List Nat)
    (hWF : rb.WF)
    (hlen : ¬ (b0 :: b1 :: rest).length < b0 * 256 + b1 + 2 + 64)
    (hnw : 2 + (b0 * 256 + b1) + nonceSize ≤ 65535) :
    ((Route r rb node (b0 :: b1 :: rest)).2.2 = [] ∨
      (Route r (Route r rb node (b0 :: b1 :: rest)).2.1 node (b0 :: b1 :: rest)).2.2 = []) ∧
    (hasMsgBeenSeen rb
        (((b0 :: b1 :: rest).drop (2 + (b0 * 256 + b1))).take nonceSize) = false →
      hasMsgBeenSeen (Route r rb node (b0 :: b1 :: rest)).2.1
        (((b0 :: b1 :: rest).drop (2 + (b0 * 256 + b1))).take nonceSize) = true ∧
      (Route r (Route r rb node (b0 :: b1 :: rest)).2.1 node (b0 :: b1 :: rest)).1 =
        Except.ok () ∧
      (Route r (Route r rb node (b0 :: b1 :: rest)).2.1 node (b0 :: b1 :: rest)).2.2 = []) := by
  by_cases hs : hasMsgBeenSeen rb
      (((b0 :: b1 :: rest).drop (2 + (b0 * 256 + b1))).take nonceSize) = true
  · constructor
    · left
      rw [route_eq_of_seen r rb node b0 b1 rest hlen hnw hs]
    · intro hmiss
      rw [hs] at hmiss
      cases hmiss
  · rw [Bool.not_eq_true] at hs
    have hseen2 := route_inserts_nonce r rb node b0 b1 rest hWF hlen hnw hs
    have h2 := route_eq_of_seen r (Route r rb node (b0 :: b1 :: rest)).2.1 node
      b0 b1 rest hlen hnw hseen2
    exact ⟨Or.inr (by rw [h2]), fun _ => ⟨hseen2, by rw [h2], by rw [h2]⟩⟩

set_option maxRecDepth 2000 in
/-- Witness for C5: a fresh buffer and a 70-byte message with channel length
1; both conjuncts hold with the default router and a do-nothing node. -/
theorem c5_route_twice_at_most_once_witness :
    newRecentBuffer.WF ∧
    ¬ (0 :: 1 :: List.replicate 68 2).length < 0 * 256 + 1 + 2 + 64 ∧
    2 + (0 * 256 + 1) + nonceSize ≤ 65535 ∧
    (((Route NewDefaultRouter newRecentBuffer trivialNode
        (0 :: 1 :: List.replicate 68 2)).2.2 = [] ∨
      (Route NewDefaultRouter (Route NewDefaultRouter newRecentBuffer trivialNode
        (0 :: 1 :: List.replicate 68 2)).2.1 trivialNode
        (0 :: 1 :: List.replicate 68 2)).2.2 = []) ∧
    (hasMsgBeenSeen newRecentBuffer
        (((0 :: 1 :: List.replicate 68 2).drop (2 + (0 * 256 + 1))).take nonceSize) = false →
      hasMsgBeenSeen (Route NewDefaultRouter newRecentBuffer trivialNode
          (0 :: 1 :: List.replicate 68 2)).2.1
        (((0 :: 1 :: List.replicate 68 2).drop (2 + (0 * 256 + 1))).take nonceSize) = true ∧
      (Route NewDefaultRouter (Route NewDefaultRouter newRecentBuffer trivialNode
        (0 :: 1 :: List.replicate 68 2)).2.1 trivialNode
        (0 :: 1 :: List.replicate 68 2)).1 = Except.ok () ∧
      (Route NewDefaultRouter (Route NewDefaultRouter newRecentBuffer trivialNode
        (0 :: 1 :: List.replicate 68 2)).2.1 trivialNode
        (0 :: 1 :: List.replicate 68 2)).2.2 = [])) :=
  ⟨⟨by decide, by decide⟩, by decide, by decide,
    c5_route_twice_at_most_once NewDefaultRouter newRecentBuffer trivialNode
      0 1 (List.replicate 68 2) ⟨by decide, by decide⟩ (by decide) (by decide)⟩

/-- Counterexample to C5 as stated: the frame `ff de ...` declares channel
length 65502; with 65568 bytes it passes the length check (a valid prefix),
but Go computes the nonce slice bounds in uint16 — `idx = 65504`,
`idx + 32` wraps to 0 — so both Route calls panic on the inverted slice
before any loop-prevention or Handle/Forward: the second call does not find
the nonce and does not return nil. -/
theorem c5_counterexample :
    ¬ (255 :: 222 :: List.replicate 65566 0).length < 255 * 256 + 222 + 2 + 64 ∧
    (Route NewDefaultRouter newRecentBuffer trivialNode
      (255 :: 222 :: List.replicate 65566 0)).1 =
        Except.error RouteErr.indexOutOfRange ∧
    (Route NewDefaultRouter
      (Route NewDefaultRouter newRecentBuffer trivialNode
        (255 :: 222 :: List.replicate 65566 0)).2.1 trivialNode
      (255 :: 222 :: List.replicate 65566 0)).1 ≠ Except.ok () := by
  have hl68 : (255 :: 222 :: (List.replicate 65566 0 : List Nat)).length = 65568 := by
    rw [List.length_cons, List.length_cons, List.length_replicate]
  have hlen : ¬ (255 :: 222 :: (List.replicate 65566 0 : List Nat)).length <
      255 * 256 + 222 + 2 + 64 := by
    rw [hl68]
    omega
  have hwrap : ((2 + (255 * 256 + 222)) % 65536 + nonceSize) % 65536 <
      (2 + (255 * 256 + 222)) % 65536 := by decide
  have h1 := route_wrap_panic NewDefaultRouter newRecentBuffer trivialNode
    255 222 (List.replicate 65566 0) hlen hwrap
  have h2 := route_wrap_panic NewDefaultRouter
    (Route NewDefaultRouter newRecentBuffer trivialNode
      (255 :: 222 :: List.replicate 65566 0)).2.1 trivialNode
    255 222 (List.replicate 65566 0) hlen hwrap
  refine ⟨hlen, by rw [h1], by rw [h2]; simp⟩

/-! ## Chunking theorems -/

theorem ceilDiv_split (n c : Nat) (hc : 0 < c) :
    n / c + (if n % c ≠ 0 then 1 else 0) = (n + c - 1) / c := by
  by_cases hr : n % c = 0
  · obtain ⟨k, hk⟩ := Nat.dvd_of_mod_eq_zero hr
    subst hk
    rw [if_neg (by simp [hr])]
    have h1 : c * k + c - 1 = c * k + (c - 1) := by omega
    rw [Nat.mul_div_cancel_left k hc, h1, Nat.mul_add_div hc,
      Nat.div_eq_of_lt (by omega)]
  · rw [if_pos hr]
    have hq := Nat.div_add_mod n c
    have hrlt : n % c < c := Nat.mod_lt _ hc
    have h1 : n + c - 1 = c * (n / c) + (c * 1 + (n % c - 1)) := by omega
    rw [h1, Nat.mul_add_div hc, Nat.mul_add_div hc,
      Nat.div_eq_of_lt (show n % c - 1 < c by omega)]

theorem join_range_chunks (c : Nat) (hc : 0 < c) :
    ∀ (tc : Nat) (buf : List Nat), buf.length ≤ tc * c →
    ((List.range tc).map (fun i => (buf.drop (i * c)).take c)).flatten = buf := by
  intro tc
  induction tc with
  | zero =>
    intro buf h
    simp only [Nat.zero_mul, Nat.le_zero] at h
    simp [List.length_eq_zero.mp h]
  | succ tc ih =>
    intro buf h
    rw [List.range_succ_eq_map]
    simp only [List.map_cons, List.map_map, List.flatten_cons, Nat.zero_mul,
      List.drop_zero]
    have hcomp : (List.range tc).map
        ((fun i => (buf.drop (i * c)).take c) ∘ (· + 1)) =
        (List.range tc).map (fun i => ((buf.drop c).drop (i * c)).take c) := by
      refine List.map_congr_left (fun i _ => ?_)
      simp only [Function.comp_apply]
      rw [List.drop_drop]
      have h3 : (i + 1) * c = c + i * c := by
        rw [Nat.succ_mul i c, Nat.add_comm]
      rw [h3]
    rw [hcomp, ih (buf.drop c)
      (by rw [List.length_drop]
          have h2 : (tc + 1) * c = tc * c + c := Nat.succ_mul tc c
          omega)]
    exact List.take_append_drop c buf

/-- Claim C3 (amended): for every payload shorter than 2^32 bytes and every
chunkSize S ≥ 9, `SendChunked` with a non-empty payload emits one stream
header whose numChunks field is ceil(len/(S-8)), followed by the chunks
numbered 0,1,2,... whose bodies in that order concatenate back to the
payload, every body except possibly the last being exactly S-8 bytes; an
empty payload emits nothing.  The length bound is forced by the source's
`buflen := uint32(len(buf))` truncation: at a payload of exactly 2^32 bytes
`SendChunked` emits nothing at all (see the counterexample). -/
theorem c3_send_chunked (streamID : List Nat) (chunkSize : Nat) (buf : List Nat)
    (h9 : 9 ≤ chunkSize) (hlen : buf.length < 4294967296) :
    (buf = [] → SendChunked streamID chunkSize buf = []) ∧
    (buf ≠ [] →
      SendChunked streamID chunkSize buf =
        { Content := streamID ++
            toLE32 ((buf.length + (chunkSize - 8) - 1) / (chunkSize - 8))
          Chunked := true, StreamHeader := true } ::
        (List.range ((buf.length + (chunkSize - 8) - 1) / (chunkSize - 8))).map
          (fun i =>
            { Content := streamID ++ toLE32 i ++
                ((buf.drop (i * (chunkSize - 8))).take (chunkSize - 8))
              Chunked := true, StreamHeader := false }) ∧
      ((List.range ((buf.length + (chunkSize - 8) - 1) / (chunkSize - 8))).map
        (fun i => (buf.drop (i * (chunkSize - 8))).take (chunkSize - 8))).flatten
          = buf ∧
      (∀ i, i + 1 < (buf.length + (chunkSize - 8) - 1) / (chunkSize - 8) →
        ((buf.drop (i * (chunkSize - 8))).take (chunkSize - 8)).length
          = chunkSize - 8)) := by
  have hc : 0 < chunkSize - 8 := by omega
  have hmod : buf.length % 4294967296 = buf.length := Nat.mod_eq_of_lt hlen
  constructor
  · intro hbuf
    subst hbuf
    simp [SendChunked]
  · intro hbuf
    have hn : buf.length ≠ 0 := by
      simpa [List.length_eq_zero] using hbuf
    have hdm := Nat.div_add_mod' buf.length (chunkSize - 8)
    have hcond : buf.length / (chunkSize - 8) + buf.length % (chunkSize - 8) ≠ 0 := by
      intro h
      obtain ⟨h1, h2⟩ := Nat.add_eq_zero.mp h
      rw [h1, h2] at hdm
      simp at hdm
      exact hn hdm.symm
    have hwlc : buf.length / (chunkSize - 8) * (chunkSize - 8) ≤ buf.length :=
      Nat.div_mul_le_self _ _
    have hceil := ceilDiv_split buf.length (chunkSize - 8) hc
    have hfull : ∀ i, i + 1 ≤ buf.length / (chunkSize - 8) →
        ((buf.drop (i * (chunkSize - 8))).take (chunkSize - 8)).length
          = chunkSize - 8 := by
      intro i hi
      rw [List.length_take, List.length_drop]
      have : (i + 1) * (chunkSize - 8) ≤
          buf.length / (chunkSize - 8) * (chunkSize - 8) :=
        Nat.mul_le_mul_right _ hi
      have h1 : (i + 1) * (chunkSize - 8) = i * (chunkSize - 8) + (chunkSize - 8) := by
        ring
      omega
    have htcle : (buf.length + (chunkSize - 8) - 1) / (chunkSize - 8) ≤
        buf.length / (chunkSize - 8) + 1 := by
      rw [← hceil]
      split <;> omega
    refine ⟨?_, ?_, ?_⟩
    · -- the emitted list, chunk numbering and header field
      simp only [SendChunked, hmod]
      rw [if_pos hcond, hceil]
      congr 1
      by_cases hrem : buf.length % (chunkSize - 8) = 0
      · rw [if_neg (by omega)]
        rw [← hceil, if_neg (by simp [hrem]), Nat.add_zero, List.append_nil]
      · rw [if_pos (by omega)]
        rw [← hceil, if_pos hrem]
        have hr : List.range (buf.length / (chunkSize - 8) + 1) =
            List.range (buf.length / (chunkSize - 8)) ++
              [buf.length / (chunkSize - 8)] := by
          simpa using List.range_succ (n := buf.length / (chunkSize - 8))
        rw [hr, List.map_append, List.map_cons, List.map_nil]
        have hrlt : buf.length % (chunkSize - 8) < chunkSize - 8 :=
          Nat.mod_lt _ hc
        have htk : (buf.drop (buf.length / (chunkSize - 8) * (chunkSize - 8))).take
            (chunkSize - 8) = buf.drop (buf.length / (chunkSize - 8) * (chunkSize - 8)) := by
          rw [List.take_of_length_le]
          rw [List.length_drop]
          omega
        rw [htk]
    · -- the bodies concatenate back to the payload
      refine join_range_chunks (chunkSize - 8) hc _ buf ?_
      rw [← hceil]
      by_cases hrem : buf.length % (chunkSize - 8) = 0
      · rw [if_neg (by simp [hrem]), Nat.add_zero]
        omega
      · rw [if_pos hrem]
        have hrlt : buf.length % (chunkSize - 8) < chunkSize - 8 :=
          Nat.mod_lt _ hc
        have hsm : (buf.length / (chunkSize - 8) + 1) * (chunkSize - 8) =
            buf.length / (chunkSize - 8) * (chunkSize - 8) + (chunkSize - 8) :=
          Nat.succ_mul _ _
        omega
    · -- all bodies except possibly the last are exactly chunkSize-8 bytes
      intro i hi
      exact hfull i (by omega)

/-- Witness for C3: chunkSize 10, payload of five bytes; two full chunks of
two bytes and a final one-byte chunk, numChunks = 3. -/
theorem c3_send_chunked_witness :
    9 ≤ 10 ∧ ([1, 2, 3, 4, 5] : List Nat).length < 4294967296 ∧
    (([1, 2, 3, 4, 5] : List Nat) ≠ [] →
      SendChunked [9, 9, 9, 9] 10 [1, 2, 3, 4, 5] =
        { Content := [9, 9, 9, 9] ++
            toLE32 ((([1, 2, 3, 4, 5] : List Nat).length + (10 - 8) - 1) / (10 - 8))
          Chunked := true, StreamHeader := true } ::
        (List.range ((([1, 2, 3, 4, 5] : List Nat).length + (10 - 8) - 1) / (10 - 8))).map
          (fun i =>
            { Content := [9, 9, 9, 9] ++ toLE32 i ++
                ((([1, 2, 3, 4, 5] : List Nat).drop (i * (10 - 8))).take (10 - 8))
              Chunked := true, StreamHeader := false }) ∧
      ((List.range ((([1, 2, 3, 4, 5] : List Nat).length + (10 - 8) - 1) / (10 - 8))).map
        (fun i => (([1, 2, 3, 4, 5] : List Nat).drop (i * (10 - 8))).take (10 - 8))).flatten
          = [1, 2, 3, 4, 5] ∧
      (∀ i, i + 1 < (([1, 2, 3, 4, 5] : List Nat).length + (10 - 8) - 1) / (10 - 8) →
        ((([1, 2, 3, 4, 5] : List Nat).drop (i * (10 - 8))).take (10 - 8)).length
          = 10 - 8)) :=
  ⟨by decide, by decide,
    (c3_send_chunked [9, 9, 9, 9] 10 [1, 2, 3, 4, 5] (by decide) (by decide)).2⟩

/-- Counterexample to C3 as stated: at a payload of exactly 2^32 bytes (an
in-scope input — with S = 10 the claimed numChunks = 2^31 still fits the u32
field), Go's `uint32(len(buf))` truncates the length to 0 and `SendChunked`
emits nothing, although the payload is non-empty. -/
theorem c3_counterexample :
    List.replicate 4294967296 1 ≠ ([] : List Nat) ∧ (9 : Nat) ≤ 10 ∧
    SendChunked [9, 9, 9, 9] 10 (List.replicate 4294967296 1) = [] := by
  refine ⟨?_, by decide, ?_⟩
  · intro h
    have h2 := congrArg List.length h
    rw [List.length_replicate] at h2
    simp only [List.length_nil] at h2
    exact absurd h2 (by decide)
  · have hlen : (List.replicate 4294967296 (1 : Nat)).length % 4294967296 = 0 := by
      rw [List.length_replicate, Nat.mod_self]
    simp only [SendChunked, hlen]
    norm_num

/-! ## Pickup / Dropoff theorems -/

theorem pickupFold_spec (rows : List (List Nat × Int)) :
    ∀ (lt : Int) (acc : List (List Nat)),
    lt ≤ (rows.foldl pickupStep (lt, acc)).1 ∧
    (∀ r ∈ rows, r.2 ≤ (rows.foldl pickupStep (lt, acc)).1) ∧
    ((rows.foldl pickupStep (lt, acc)).1 = lt ∨
      ∃ r ∈ rows, (rows.foldl pickupStep (lt, acc)).1 = r.2) ∧
    (rows.foldl pickupStep (lt, acc)).2 = acc ++ rows.map Prod.fst := by
  induction rows with
  | nil => intro lt acc; simp
  | cons row rest ih =>
    intro lt acc
    simp only [List.foldl_cons, pickupStep]
    obtain ⟨ih1, ih2, ih3, ih4⟩ := ih (if row.2 > lt then row.2 else lt) (acc ++ [row.1])
    refine ⟨?_, ?_, ?_, ?_⟩
    · refine le_trans ?_ ih1
      split
      · next h => exact le_of_lt h
      · exact le_refl lt
    · intro r hr
      rcases List.mem_cons.mp hr with h | h
      · subst h
        refine le_trans ?_ ih1
        split
        · exact le_refl _
        · next h2 => exact le_of_not_lt h2
      · exact ih2 r h
    · rcases ih3 with h | ⟨r, hr, hres⟩
      · rw [h]
        split
        · exact Or.inr ⟨row, List.mem_cons_self _ _, rfl⟩
        · exact Or.inl rfl
      · exact Or.inr ⟨r, List.mem_cons_of_mem _ hr, hres⟩
    · rw [ih4]
      simp

/-- Claim C4 (amended): `Pickup`'s returned time is always ≥ the requested
`lastTime`; with no rows it equals `lastTime` and the bundle data is empty;
with rows it is the maximum of `lastTime` and the row timestamps (every row
timestamp is ≤ it, and it is `lastTime` or some row's timestamp).  It equals
the maximum row timestamp under the query guarantee — available whenever
`lastTime ≠ 0`, when the query filters `timestamp > lastTime` — but with
`lastTime = 0` the query does not filter, and a row set whose timestamps are
all negative makes the returned time 0, not the row maximum. -/
theorem c4_pickup_time (encrypt : List (List Nat) → List Nat) (lastTime : Int)
    (rows : List (List Nat × Int))
    (hq : lastTime ≠ 0 → ∀ r ∈ rows, lastTime < r.2) :
    lastTime ≤ (Pickup encrypt lastTime rows).Time ∧
    (rows = [] → (Pickup encrypt lastTime rows).Time = lastTime ∧
      (Pickup encrypt lastTime rows).Data = []) ∧
    (∀ r ∈ rows, r.2 ≤ (Pickup encrypt lastTime rows).Time) ∧
    ((Pickup encrypt lastTime rows).Time = lastTime ∨
      ∃ r ∈ rows, (Pickup encrypt lastTime rows).Time = r.2) ∧
    (lastTime ≠ 0 → rows ≠ [] →
      ∃ r ∈ rows, (Pickup encrypt lastTime rows).Time = r.2 ∧
        ∀ r2 ∈ rows, r2.2 ≤ r.2) := by
  obtain ⟨h1, h2, h3, h4⟩ := pickupFold_spec rows lastTime []
  have hTime : (Pickup encrypt lastTime rows).Time =
      (rows.foldl pickupStep (lastTime, [])).1 := by
    simp only [Pickup, pickupScan]
    split <;> rfl
  refine ⟨?_, ?_, ?_, ?_, ?_⟩
  · rw [hTime]; exact h1
  · intro h
    subst h
    exact ⟨rfl, rfl⟩
  · intro r hr
    rw [hTime]; exact h2 r hr
  · rw [hTime]; exact h3
  · intro h0 hne
    rcases h3 with heq | ⟨r, hr, hres⟩
    · exfalso
      obtain ⟨r, hr⟩ := List.exists_mem_of_ne_nil rows hne
      have ha := hq h0 r hr
      have hb := h2 r hr
      rw [heq] at hb
      omega
    · refine ⟨r, hr, by rw [hTime]; exact hres, fun r2 hr2 => ?_⟩
      have := h2 r2 hr2
      rw [hres] at this
      exact this

/-- Witness for C4: `lastTime = 2`, rows at timestamps 5 and 3; the returned
time is 5 (max), data fed through the encrypt collaborator. -/
theorem c4_pickup_time_witness :
    (2 : Int) ≤ (Pickup (fun _ => [7]) 2 [([1], 5), ([2], 3)]).Time ∧
    (([([1], 5), ([2], 3)] : List (List Nat × Int)) = [] →
      (Pickup (fun _ => [7]) 2 [([1], 5), ([2], 3)]).Time = 2 ∧
      (Pickup (fun _ => [7]) 2 [([1], 5), ([2], 3)]).Data = []) ∧
    (∀ r ∈ ([([1], 5), ([2], 3)] : List (List Nat × Int)),
      r.2 ≤ (Pickup (fun _ => [7]) 2 [([1], 5), ([2], 3)]).Time) ∧
    ((Pickup (fun _ => [7]) 2 [([1], 5), ([2], 3)]).Time = 2 ∨
      ∃ r ∈ ([([1], 5), ([2], 3)] : List (List Nat × Int)),
        (Pickup (fun _ => [7]) 2 [([1], 5), ([2], 3)]).Time = r.2) ∧
    ((2 : Int) ≠ 0 → ([([1], 5), ([2], 3)] : List (List Nat × Int)) ≠ [] →
      ∃ r ∈ ([([1], 5), ([2], 3)] : List (List Nat × Int)),
        (Pickup (fun _ => [7]) 2 [([1], 5), ([2], 3)]).Time = r.2 ∧
          ∀ r2 ∈ ([([1], 5), ([2], 3)] : List (List Nat × Int)), r2.2 ≤ r.2) :=
  c4_pickup_time (fun _ => [7]) 2 [([1], 5), ([2], 3)] (by decide)

/-- Counterexample to C4 as stated: with `lastTime = 0` the query applies no
timestamp filter, so a returned row may carry a negative timestamp; on the
single row with timestamp −5 the code returns time 0 = lastTime, not the
row maximum −5. -/
theorem c4_counterexample :
    ([(([] : List Nat), (-5 : Int))] : List (List Nat × Int)) ≠ [] ∧
    (∀ r ∈ ([(([] : List Nat), (-5 : Int))] : List (List Nat × Int)), r.2 = -5) ∧
    (Pickup (fun _ => []) 0 [(([] : List Nat), (-5 : Int))]).Time = 0 ∧
    (0 : Int) ≠ -5 := by
  exact ⟨by decide, by decide, by decide, by decide⟩

theorem dropoffLoop_eq_filter (route : List Nat → Except Nat Unit)
    (msgs : List (List Nat)) :
    dropoffLoop route msgs = msgs.filter (fun m => decide (¬ m.length < 16)) := by
  induction msgs with
  | nil => rfl
  | cons m rest ih =>
    simp only [dropoffLoop, List.filter_cons]
    by_cases h : m.length < 16
    · simp [h, ih]
    · cases hroute : route m <;> simp [h, ih, hroute]

/-- Claim C6: `Dropoff` routes exactly the decoded messages of length ≥ 16
(shorter ones are skipped); per-message routing errors are swallowed and do
not stop the rest (the routed list does not depend on the route results at
all); and the caller sees an error only for empty bundle data, a decryption
error, a failed envelope tag, or a decode failure. -/
theorem c6_dropoff_errors (decrypt : List Nat → Except Nat (Bool × List Nat))
    (decode : List Nat → Except Nat (List (List Nat)))
    (route : List Nat → Except Nat Unit) (data : List Nat) :
    (data = [] → (Dropoff decrypt decode route data).1 = .error .noData) ∧
    (∀ e, data ≠ [] → decrypt data = .error e →
      (Dropoff decrypt decode route data).1 = .error (.decryptErr e)) ∧
    (∀ clear, data ≠ [] → decrypt data = .ok (false, clear) →
      (Dropoff decrypt decode route data).1 = .error .tagFail) ∧
    (∀ clear e, data ≠ [] → decrypt data = .ok (true, clear) →
      decode clear = .error e →
      (Dropoff decrypt decode route data).1 = .error (.decodeErr e)) ∧
    (∀ clear msgs, data ≠ [] → decrypt data = .ok (true, clear) →
      decode clear = .ok msgs →
      (Dropoff decrypt decode route data).1 = .ok () ∧
      (Dropoff decrypt decode route data).2 =
        msgs.filter (fun m => decide (¬ m.length < 16))) := by
  refine ⟨?_, ?_, ?_, ?_, ?_⟩
  · intro h
    subst h
    rfl
  · intro e hne hdec
    have hll : ¬ data.length < 1 := by
      simpa [Nat.lt_one_iff, List.length_eq_zero] using hne
    simp only [Dropoff, if_neg hll, hdec]
  · intro clear hne hdec
    have hll : ¬ data.length < 1 := by
      simpa [Nat.lt_one_iff, List.length_eq_zero] using hne
    simp only [Dropoff, if_neg hll, hdec, Bool.not_false, if_true]
  · intro clear e hne hdec hdeco
    have hll : ¬ data.length < 1 := by
      simpa [Nat.lt_one_iff, List.length_eq_zero] using hne
    simp only [Dropoff, if_neg hll, hdec, hdeco, Bool.not_true,
      Bool.false_eq_true, if_false]
  · intro clear msgs hne hdec hdeco
    have hll : ¬ data.length < 1 := by
      simpa [Nat.lt_one_iff, List.length_eq_zero] using hne
    constructor <;>
      simp only [Dropoff, if_neg hll, hdec, hdeco, Bool.not_true,
        Bool.false_eq_true, if_false, dropoffLoop_eq_filter]

/-- Witness for C6: a 16-byte message and a 1-byte message after a
successful decrypt and decode; with an always-failing router the call still
succeeds and routes exactly the long message. -/
theorem c6_dropoff_errors_witness :
    (Dropoff (fun d => .ok (true, d)) (fun d => .ok [d, [1]])
      (fun _ => .error 3) (List.replicate 16 5)).1 = .ok () ∧
    (Dropoff (fun d => .ok (true, d)) (fun d => .ok [d, [1]])
      (fun _ => .error 3) (List.replicate 16 5)).2 =
      ([List.replicate 16 5, [1]].filter (fun m => decide (¬ m.length < 16))) :=
  (c6_dropoff_errors (fun d => .ok (true, d)) (fun d => .ok [d, [1]])
    (fun _ => .error 3) (List.replicate 16 5)).2.2.2.2
    (List.replicate 16 5) [List.replicate 16 5, [1]] (by decide) rfl rfl

theorem validChars_iff (c : Nat) :
    c ∈ validChars ↔
      ((48 ≤ c ∧ c ≤ 57) ∨ (65 ≤ c ∧ c ≤ 90) ∨ (97 ≤ c ∧ c ≤ 122)) := by
  simp only [validChars, List.mem_cons, List.not_mem_nil, or_false]
  omega

/-- Claim C8: with at least one channel name supplied, `Pickup`'s validation
fails with the invalid-channel-name error iff some supplied name contains a
character outside [A-Za-z0-9] (the Go digit string "0987654321" holds all
ten digits); with no names, validation never fails and no channel filter is
applied — all channels are queried. -/
theorem c8_pickup_channel_validation (names : List (List Nat)) :
    (names ≠ [] →
      (pickupChannelFilter names = .error .invalidChannelName ↔
        ∃ n ∈ names, ∃ c ∈ n,
          ¬ ((48 ≤ c ∧ c ≤ 57) ∨ (65 ≤ c ∧ c ≤ 90) ∨ (97 ≤ c ∧ c ≤ 122)))) ∧
    (names = [] → pickupChannelFilter names = .ok none) ∧
    (names ≠ [] → ∀ res, pickupChannelFilter names = .ok res →
      res = some names) := by
  have hkey : (names.any (fun cname =>
      cname.any (fun c => !(decide (c ∈ validChars)))) = true) ↔
      ∃ n ∈ names, ∃ c ∈ n,
        ¬ ((48 ≤ c ∧ c ≤ 57) ∨ (65 ≤ c ∧ c ≤ 90) ∨ (97 ≤ c ∧ c ≤ 122)) := by
    simp only [List.any_eq_true, Bool.not_eq_true', decide_eq_false_iff_not,
      validChars_iff]
  refine ⟨?_, ?_, ?_⟩
  · intro hne
    have hlen : ¬ names.length < 1 := by
      simpa [Nat.lt_one_iff, List.length_eq_zero] using hne
    by_cases hany : names.any (fun cname =>
        cname.any (fun c => !(decide (c ∈ validChars)))) = true
    · simp only [pickupChannelFilter, if_neg hlen, if_pos hany]
      exact ⟨fun _ => hkey.mp hany, fun _ => trivial⟩
    · simp only [pickupChannelFilter, if_neg hlen, if_neg hany]
      constructor
      · intro h
        cases h
      · intro h
        exact absurd (hkey.mpr h) hany
  · intro h
    subst h
    rfl
  · intro hne res
    have hlen : ¬ names.length < 1 := by
      simpa [Nat.lt_one_iff, List.length_eq_zero] using hne
    by_cases hany : names.any (fun cname =>
        cname.any (fun c => !(decide (c ∈ validChars)))) = true
    · simp only [pickupChannelFilter, if_neg hlen, if_pos hany]
      intro h
      cases h
    · simp only [pickupChannelFilter, if_neg hlen, if_neg hany]
      intro h
      cases h
      rfl

/-- Witness for C8: the name "a!" (byte 33 is not alphanumeric) is rejected;
the empty name list yields wildcard mode. -/
theorem c8_pickup_channel_validation_witness :
    pickupChannelFilter [[97, 33]] = .error .invalidChannelName ∧
    pickupChannelFilter [] = .ok none :=
  ⟨((c8_pickup_channel_validation [[97, 33]]).1 (by decide)).mpr
      ⟨[97, 33], by decide, 33, by decide, by decide⟩,
    (c8_pickup_channel_validation []).2.1 rfl⟩

/-! ## Outbox framing and channel-cache theorems -/

theorem frameChannel_eq (channelName message : List Nat)
    (h : channelName.length < 65536) :
    frameChannel channelName message =
      channelName.length / 256 :: channelName.length % 256 ::
        (channelName ++ message) := by
  simp only [frameChannel, Nat.mod_eq_of_lt h, Nat.shiftRight_eq_div_pow]
  have h1 : channelName.length / 2 ^ 8 = channelName.length / 256 := by norm_num
  have h2 : channelName.length / 256 < 256 := by
    apply Nat.div_lt_of_lt_mul
    omega
  rw [h1, Nat.mod_eq_of_lt h2]

/-- Claim C9: every row enqueued into the outbox — by `Forward` and by the
`send` path used by Send/SendChannel — begins with the two-byte big-endian
encoding of the channel-name length (high byte first), then the name bytes,
then the original (respectively encrypted) body. -/
theorem c9_outbox_frame (outbox : List (List Nat × List Nat × Int))
    (channelName message : List Nat) (now : Int)
    (encrypt : List Nat → List Nat)
    (hname : channelName.length < 65536) :
    (∀ row ∈ qldbForward outbox channelName message now,
      row ∈ outbox ∨
      row.2.1 = channelName.length / 256 :: channelName.length % 256 ::
        (channelName ++ message)) ∧
    (∀ row ∈ nodeSend encrypt outbox channelName message now,
      row ∈ outbox ∨
      row.2.1 = channelName.length / 256 :: channelName.length % 256 ::
        (channelName ++ encrypt message)) := by
  constructor
  · intro row hrow
    simp only [qldbForward, outboxEnqueue] at hrow
    split at hrow
    · exact Or.inl hrow
    · rcases List.mem_append.mp hrow with h | h
      · exact Or.inl h
      · right
        rw [List.mem_singleton.mp h]
        exact frameChannel_eq channelName message hname
  · intro row hrow
    simp only [nodeSend, outboxEnqueue] at hrow
    rcases List.mem_append.mp hrow with h | h
    · exact Or.inl h
    · right
      rw [List.mem_singleton.mp h]
      exact frameChannel_eq channelName (encrypt message) hname

/-- Witness for C9: one-byte channel name [5], body [6], identity-like
encrypt; the enqueued rows carry the 0,1 length prefix. -/
theorem c9_outbox_frame_witness :
    (∀ row ∈ qldbForward [] [5] [6] 0,
      row ∈ ([] : List (List Nat × List Nat × Int)) ∨
      row.2.1 = ([5] : List Nat).length / 256 :: ([5] : List Nat).length % 256 ::
        ([5] ++ [6])) ∧
    (∀ row ∈ nodeSend (fun m => 9 :: m) [] [5] [6] 0,
      row ∈ ([] : List (List Nat × List Nat × Int)) ∨
      row.2.1 = ([5] : List Nat).length / 256 :: ([5] : List Nat).length % 256 ::
        ([5] ++ (fun (m : List Nat) => 9 :: m) [6])) :=
  c9_outbox_frame [] [5] [6] 0 (fun m => 9 :: m) (by decide)

theorem foldInsert_preserve (t : List (List Nat × Nat)) (k : List Nat) :
    ∀ (m : List Nat → Option Nat), k ∉ t.map Prod.fst →
    (t.foldl (fun m e => mapInsert m e.1 e.2) m) k = m k := by
  induction t with
  | nil => intro m _; rfl
  | cons x t ih =>
    intro m hk
    simp only [List.map_cons, List.mem_cons] at hk
    push_neg at hk
    simp only [List.foldl_cons]
    rw [ih _ hk.2]
    simp [mapInsert, hk.1]

theorem foldInsert_mem (l : List (List Nat × Nat)) :
    ∀ (m : List Nat → Option Nat), (l.map Prod.fst).Nodup →
    ∀ e ∈ l, (l.foldl (fun m e => mapInsert m e.1 e.2) m) e.1 = some e.2 := by
  induction l with
  | nil => intro m _ e he; cases he
  | cons x t ih =>
    intro m hnd e he
    simp only [List.map_cons, List.nodup_cons] at hnd
    simp only [List.foldl_cons]
    rcases List.mem_cons.mp he with h | h
    · subst h
      rw [foldInsert_preserve t e.1 _ hnd.1]
      simp [mapInsert]
    · exact ih _ hnd.2 e h

theorem dbAddChannel_nodup (st : List (List Nat × Nat)) (name : List Nat)
    (privkey : Nat) (h : (st.map Prod.fst).Nodup) :
    ((dbAddChannel st name privkey).map Prod.fst).Nodup := by
  unfold dbAddChannel
  split
  · have heq : (st.map (fun e => if e.1 == name then (name, privkey) else e)).map
        Prod.fst = st.map Prod.fst := by
      rw [List.map_map]
      refine List.map_congr_left (fun e _ => ?_)
      simp only [Function.comp_apply]
      split
      · next he =>
        simp only [beq_iff_eq] at he
        simp [he]
      · rfl
    rw [heq]
    exact h
  · next hany =>
    have hnin : name ∉ st.map Prod.fst := by
      intro hmem
      obtain ⟨e, he, hfst⟩ := List.mem_map.mp hmem
      exact hany (List.any_eq_true.mpr ⟨e, he, by simp [hfst]⟩)
    rw [List.map_append]
    simp only [List.map_cons, List.map_nil]
    rw [List.nodup_append]
    exact ⟨h, List.nodup_singleton _, by
      intro a ha hb
      rw [List.mem_singleton.mp hb] at ha
      exact hnin ha⟩

/-- Claim C7 (amended): after `AddChannel(name, privkey)` the in-memory
cache is refreshed by merging the store into it — every channel row in the
store has its key in the cache (the cache may keep extra stale entries);
`DeleteChannel(name)` does NOT refresh the cache, which stays pointwise
unchanged, so a subsequent `Handle(name, body)` still finds the previously
cached key for that channel. -/
theorem c7_channel_cache (n : ChannelState) (name : List Nat) (privkey : Nat)
    (hnd : (n.channels.map Prod.fst).Nodup) :
    (∀ e ∈ (AddChannel n name privkey).channels,
      handleChannelKey (AddChannel n name privkey) e.1 = some e.2) ∧
    (∀ q, handleChannelKey (DeleteChannel n name) q = handleChannelKey n q) := by
  constructor
  · intro e he
    have hnd2 := dbAddChannel_nodup n.channels name privkey hnd
    simp only [AddChannel, refreshChannels, handleChannelKey] at he ⊢
    exact foldInsert_mem _ _ hnd2 e he
  · intro q
    rfl

/-- Witness for C7 (amended): adding channel "a" (byte 97) to an empty node
caches its key; deleting leaves the cache untouched. -/
theorem c7_channel_cache_witness :
    (∀ e ∈ (AddChannel ⟨[], fun _ => none⟩ [97] 1).channels,
      handleChannelKey (AddChannel ⟨[], fun _ => none⟩ [97] 1) e.1 = some e.2) ∧
    (∀ q, handleChannelKey (DeleteChannel ⟨[], fun _ => none⟩ [97]) q =
      handleChannelKey ⟨[], fun _ => none⟩ q) :=
  c7_channel_cache ⟨[], fun _ => none⟩ [97] 1 (by decide)

/-- Counterexample to C7 as stated: a node whose store and cache both hold
channel "a" (byte 97); after `DeleteChannel("a")` the store row is gone but
`Handle`'s cache lookup still finds the key — the cache is not refreshed to
match the store, and the channel's key remains usable. -/
theorem c7_counterexample :
    (DeleteChannel
      ⟨[([97], 1)], fun q => if q = [97] then some 1 else none⟩ [97]).channels
        = [] ∧
    handleChannelKey (DeleteChannel
      ⟨[([97], 1)], fun q => if q = [97] then some 1 else none⟩ [97]) [97]
        = some 1 := by
  constructor
  · rfl
  · rfl

end Ratnet
